import Mathlib

/-!
Verification of the stack-catalog resolver of the Cortex repository
(`src/cortex/stack_manager.py`), as a shallow embedding in Lean 4.

Modelling conventions:
* A parsed JSON document is a `Json` value; machine integers and floats do
  not occur in the catalog claims, so JSON numbers are carried as `Int`.
* The catalog file on disk is a `CatalogFile`: it is absent, present but not
  decodable as JSON (what `json.load` rejects with `JSONDecodeError`), or
  present and decodable to a `Json` value.
* Python exception outcomes are an explicit `CortexError` in an `Except`:
  `catalogNotFound` stands for the `FileNotFoundError` re-raised by
  `load_stacks`, `catalogCorrupt` for its `ValueError` on invalid JSON,
  `keyError k` for `KeyError(k)` from a `d[k]` lookup, `typeError` for
  `TypeError`, `attributeError` for `AttributeError` (calling `.get` on a
  value that is not a dict).
* The manager state mirrors `StackManager.__init__`: `self._stacks` starts
  as `None` and `json.load` maps JSON `null` to `None` as well, so the cache
  slot is a `Json` with `Json.null` playing the role of Python `None`.
  Every method is a function from the manager state to a result paired with
  the successor state.
-/

namespace Cortex

/-- Parsed JSON values, as produced by `json.load`. -/
inductive Json where
  | null : Json
  | bool : Bool → Json
  | num : Int → Json
  | str : String → Json
  | arr : List Json → Json
  | obj : List (String × Json) → Json

/-- Python `x is None` test on a parsed value (JSON `null` parses to `None`). -/
def Json.isNull : Json → Bool
  | Json.null => true
  | _ => false

/-- The catalog file at `self.stacks_file`, as the loader can observe it. -/
inductive CatalogFile where
  | absent : CatalogFile
  | invalidJson : CatalogFile
  | validJson : Json → CatalogFile

/-- Exception outcomes of the resolver methods. -/
inductive CortexError where
  | catalogNotFound : CortexError
  | catalogCorrupt : CortexError
  | keyError : String → CortexError
  | typeError : CortexError
  | attributeError : CortexError

/-- State of a `StackManager` instance: the fixed catalog file and the
`self._stacks` cache slot (`Json.null` = Python `None` = not yet loaded). -/
structure StackManager where
  stacks_file : CatalogFile
  _stacks : Json

/-- Embedding of `StackManager.load_stacks`: return the cache if
`self._stacks is not None`, otherwise open and parse the file, caching the
parsed value on success; `FileNotFoundError` is re-raised as the
catalog-not-found error and `json.JSONDecodeError` as the invalid-JSON
`ValueError`, with the cache slot untouched on failure. -/
def load_stacks (m : StackManager) : Except CortexError Json × StackManager :=
  if m._stacks.isNull then
    match m.stacks_file with
    | CatalogFile.absent => (Except.error CortexError.catalogNotFound, m)
    | CatalogFile.invalidJson => (Except.error CortexError.catalogCorrupt, m)
    | CatalogFile.validJson doc => (Except.ok doc, { m with _stacks := doc })
  else
    (Except.ok m._stacks, m)

/-- First-match association lookup, the semantics of `d[k]` / `d.get(k)` on a
parsed JSON object (`json.load` keeps one binding per key). -/
def lookupField : List (String × Json) → String → Option Json
  | [], _ => none
  | (k, v) :: rest, key => if k == key then some v else lookupField rest key

/-- Python subscript `d[k]`: a value for the key, `KeyError` when the key is
missing, `TypeError` when the value is not a dict (string keys assumed). -/
def getItem (j : Json) (k : String) : Except CortexError Json :=
  match j with
  | Json.obj fields =>
    match lookupField fields k with
    | some v => Except.ok v
    | none => Except.error (CortexError.keyError k)
  | _ => Except.error CortexError.typeError

/-- Python `d.get(k, default)`: `AttributeError` when the receiver is not a
dict, otherwise the stored value or the default. -/
def dictGetD (j : Json) (k : String) (d : Json) : Except CortexError Json :=
  match j with
  | Json.obj fields => Except.ok ((lookupField fields k).getD d)
  | _ => Except.error CortexError.attributeError

/-- Python iteration `for x in v`: lists yield their elements, strings their
one-character substrings, dicts their keys; other values raise `TypeError`. -/
def pyIter : Json → Except CortexError (List Json)
  | Json.arr xs => Except.ok xs
  | Json.str s => Except.ok (s.toList.map (fun c => Json.str c.toString))
  | Json.obj fields => Except.ok (fields.map (fun p => Json.str p.1))
  | _ => Except.error CortexError.typeError

/-- Python truthiness of a parsed JSON value. -/
def pyTruthy : Json → Bool
  | Json.null => false
  | Json.bool b => b
  | Json.num n => n != 0
  | Json.str s => !s.isEmpty
  | Json.arr xs => !xs.isEmpty
  | Json.obj fields => !fields.isEmpty

/-- Embedding of `StackManager.list_stacks`: load, then `stacks.get("stacks", [])`. -/
def list_stacks (m : StackManager) : Except CortexError Json × StackManager :=
  match load_stacks m with
  | (Except.error e, m2) => (Except.error e, m2)
  | (Except.ok doc, m2) => (dictGetD doc "stacks" (Json.arr []), m2)

/-- Python `stack["id"] == stack_id` with `stack_id` a `str`: string values
compare by equality, any other value compares unequal to a `str`. -/
def jsonEqStr (v : Json) (s : String) : Bool :=
  match v with
  | Json.str t => t == s
  | _ => false

/-- The `for stack in stacks` loop body of `find_stack`: return the first
entry whose `"id"` item equals the queried id, `None` when the scan ends. -/
def findLoop : List Json → String → Except CortexError (Option Json)
  | [], _ => Except.ok none
  | s :: rest, sid =>
    match getItem s "id" with
    | Except.error e => Except.error e
    | Except.ok v =>
      if jsonEqStr v sid then Except.ok (some s) else findLoop rest sid

/-- Embedding of `StackManager.find_stack`: iterate over `list_stacks()` and
scan for an exact `"id"` match. -/
def find_stack (m : StackManager) (stack_id : String) :
    Except CortexError (Option Json) × StackManager :=
  match list_stacks m with
  | (Except.error e, m2) => (Except.error e, m2)
  | (Except.ok stacksVal, m2) =>
    match pyIter stacksVal with
    | Except.error e => (Except.error e, m2)
    | Except.ok xs => (findLoop xs stack_id, m2)

/-- Python truthiness of the `Optional[Dict]` returned by `find_stack`. -/
def pyTruthyOpt : Option Json → Bool
  | none => false
  | some s => pyTruthy s

/-- Embedding of `StackManager.get_stack_packages`: `[]` for a falsy find
result, otherwise `stack.get("packages", [])`. -/
def get_stack_packages (m : StackManager) (stack_id : String) :
    Except CortexError Json × StackManager :=
  match find_stack m stack_id with
  | (Except.error e, m2) => (Except.error e, m2)
  | (Except.ok res, m2) =>
    if pyTruthyOpt res then
      match res with
      | some s => (dictGetD s "packages" (Json.arr []), m2)
      | none => (Except.ok (Json.arr []), m2)
    else
      (Except.ok (Json.arr []), m2)

/-- Outcome of the hardware-capability query as the caller can
observe it: a boolean answer, or a failure of the probe machinery. -/
inductive ProbeResult where
  | ok : Bool → ProbeResult
  | failure : ProbeResult

/-- Modelled from the spec: `has_nvidia_gpu` of `cortex.hardware_detection`
is imported by `stack_manager.py` but its module is not under `src/`.
Sections 4.3 and 7 of the spec fix its contract: one synchronous boolean
query for accelerator presence, best-effort, with any failure of the probe
degrading to the conservative answer `false` (failure means no GPU). -/
def has_nvidia_gpu : ProbeResult → Bool
  | ProbeResult.ok b => b
  | ProbeResult.failure => false

/-- Embedding of `StackManager.suggest_stack`: for the distinguished id
`"ml"` consult the hardware probe and pick `"ml"` or `"ml-cpu"`; every other
id is returned unchanged. The probe outcome is threaded as an argument. -/
def suggest_stack (probe : ProbeResult) (base_stack : String) : String :=
  if base_stack = "ml" then
    if has_nvidia_gpu probe then "ml" else "ml-cpu"
  else
    base_stack

/-- The apostrophe character, used by messages such as the not-found text. -/
def squote : String := (Char.ofNat 39).toString

mutual

/-- Python `repr` of a parsed JSON value (string escaping elided: the
catalog claims only render plain strings, which `f`-strings emit verbatim
through `str`, not `repr`). -/
def pyRepr : Json → String
  | Json.null => "None"
  | Json.bool true => "True"
  | Json.bool false => "False"
  | Json.num n => toString n
  | Json.str s => squote ++ s ++ squote
  | Json.arr xs => "[" ++ String.intercalate ", " (pyReprList xs) ++ "]"
  | Json.obj fields => "\x7b" ++ String.intercalate ", " (pyReprFields fields) ++ "\x7d"

/-- Python repr of each element of a list. -/
def pyReprList : List Json → List String
  | [] => []
  | j :: rest => pyRepr j :: pyReprList rest

/-- Python repr of each binding of a dict. -/
def pyReprFields : List (String × Json) → List String
  | [] => []
  | (k, v) :: rest => (squote ++ k ++ squote ++ ": " ++ pyRepr v) :: pyReprFields rest

end

/-- Python `str` of a parsed JSON value, the conversion an `f`-string
interpolation applies: a `str` is emitted verbatim, anything else via `repr`
(for containers) or its canonical text (`None`, `True`, numbers). -/
def pyStr : Json → String
  | Json.str s => s
  | j => pyRepr j

/-- The `for idx, pkg in enumerate(..., 1)` loop of `describe_stack`:
one line `  {idx}. {pkg}` per package, starting at the given index. -/
def numberedLines : Nat → List Json → String
  | _, [] => ""
  | i, p :: rest => "  " ++ toString i ++ ". " ++ pyStr p ++ "\n" ++ numberedLines (i + 1) rest

/-- Python `sep.join(v)`: iterate the receiver and require every element to
be a `str`, otherwise `TypeError`. -/
def strList : List Json → Except CortexError (List String)
  | [] => Except.ok []
  | Json.str s :: rest =>
    match strList rest with
    | Except.error e => Except.error e
    | Except.ok ss => Except.ok (s :: ss)
  | _ :: _ => Except.error CortexError.typeError

/-- Python `sep.join(v)` on a parsed JSON value. -/
def pyJoin (sep : String) (v : Json) : Except CortexError String :=
  match pyIter v with
  | Except.error e => Except.error e
  | Except.ok xs =>
    match strList xs with
    | Except.error e => Except.error e
    | Except.ok ss => Except.ok (String.intercalate sep ss)

/-- Quoted not-found message of `describe_stack` (the id in single quotes). -/
def notFoundMsg (stack_id : String) : String :=
  "Stack " ++ squote ++ stack_id ++ squote ++ " not found"

/-- The `tags` segment of `describe_stack`: a `Tags:` line exactly when the
`tags` value is truthy, joined with a comma. -/
def tagsSegment (tagsVal : Json) : Except CortexError String :=
  if pyTruthy tagsVal then
    match pyJoin ", " tagsVal with
    | Except.error e => Except.error e
    | Except.ok joined => Except.ok ("\nTags:  " ++ joined ++ "\n")
  else
    Except.ok ""

/-- Body of `describe_stack` on a found stack, accessing the fields in the
order of the source: `stack["name"]`, `stack["description"]`,
`stack.get("packages", [])` iterated with numbering from 1,
`stack.get("tags", [])` rendered only when truthy, and
`stack.get("hardware", "any")`. -/
def describeBody (s : Json) : Except CortexError String :=
  match getItem s "name" with
  | Except.error e => Except.error e
  | Except.ok nameVal =>
    match getItem s "description" with
    | Except.error e => Except.error e
    | Except.ok descVal =>
      match dictGetD s "packages" (Json.arr []) with
      | Except.error e => Except.error e
      | Except.ok pkgsVal =>
        match pyIter pkgsVal with
        | Except.error e => Except.error e
        | Except.ok pkgs =>
          match dictGetD s "tags" (Json.arr []) with
          | Except.error e => Except.error e
          | Except.ok tagsVal =>
            match tagsSegment tagsVal with
            | Except.error e => Except.error e
            | Except.ok tagStr =>
              match dictGetD s "hardware" (Json.str "any") with
              | Except.error e => Except.error e
              | Except.ok hwVal =>
                Except.ok ("\n📦 Stack: " ++ pyStr nameVal ++ "\n" ++
                  "Description: " ++ pyStr descVal ++ "\n\n" ++
                  "Packages included:\n" ++ numberedLines 1 pkgs ++
                  tagStr ++ "Hardware: " ++ pyStr hwVal ++ "\n")

/-- Embedding of `StackManager.describe_stack`: the not-found message for a
falsy find result, otherwise the formatted multi-line summary. -/
def describe_stack (m : StackManager) (stack_id : String) :
    Except CortexError String × StackManager :=
  match find_stack m stack_id with
  | (Except.error e, m2) => (Except.error e, m2)
  | (Except.ok res, m2) =>
    if pyTruthyOpt res then
      match res with
      | some s => (describeBody s, m2)
      | none => (Except.ok (notFoundMsg stack_id), m2)
    else
      (Except.ok (notFoundMsg stack_id), m2)

/-- Observable `"id"` field of a catalog entry: the string stored under
`"id"`, when the entry is a dict that has one. -/
def entryId (s : Json) : Option String :=
  match getItem s "id" with
  | Except.ok (Json.str t) => some t
  | _ => none

/-! ## Helper lemmas -/

theorem isNull_eq_false_of_ne (j : Json) (h : j ≠ Json.null) : j.isNull = false := by
  cases j with
  | null => exact absurd rfl h
  | bool b => rfl
  | num n => rfl
  | str s => rfl
  | arr xs => rfl
  | obj fields => rfl

theorem load_stacks_cached (m : StackManager) (h : m._stacks.isNull = false) :
    load_stacks m = (Except.ok m._stacks, m) := by
  simp [load_stacks, h]

theorem list_stacks_snd (m : StackManager) :
    (list_stacks m).2 = (load_stacks m).2 := by
  unfold list_stacks
  split
  next e m2 heq => rw [heq]
  next doc m2 heq => rw [heq]

theorem find_stack_snd (m : StackManager) (sid : String) :
    (find_stack m sid).2 = (load_stacks m).2 := by
  rw [← list_stacks_snd m]
  unfold find_stack
  split
  next e m2 heq => rw [heq]
  next stacksVal m2 heq =>
    rw [heq]
    split <;> rfl

theorem get_stack_packages_snd (m : StackManager) (sid : String) :
    (get_stack_packages m sid).2 = (load_stacks m).2 := by
  rw [← find_stack_snd m sid]
  unfold get_stack_packages
  split
  next e m2 heq => rw [heq]
  next res m2 heq =>
    rw [heq]
    split
    · cases res <;> rfl
    · rfl

theorem describe_stack_snd (m : StackManager) (sid : String) :
    (describe_stack m sid).2 = (load_stacks m).2 := by
  rw [← find_stack_snd m sid]
  unfold describe_stack
  split
  next e m2 heq => rw [heq]
  next res m2 heq =>
    rw [heq]
    split
    · cases res <;> rfl
    · rfl

theorem entryId_spec (s : Json) (h : (entryId s).isSome = true) :
    ∃ t, getItem s "id" = Except.ok (Json.str t) ∧ entryId s = some t := by
  rcases hg : getItem s "id" with e | v
  · unfold entryId at h
    rw [hg] at h
    simp at h
  · cases v with
    | str t =>
      refine ⟨t, rfl, ?_⟩
      unfold entryId
      rw [hg]
    | null => unfold entryId at h; rw [hg] at h; simp at h
    | bool b => unfold entryId at h; rw [hg] at h; simp at h
    | num n => unfold entryId at h; rw [hg] at h; simp at h
    | arr xs => unfold entryId at h; rw [hg] at h; simp at h
    | obj fs => unfold entryId at h; rw [hg] at h; simp at h

theorem entry_obj_of_id (s : Json) (h : (entryId s).isSome = true) :
    ∃ fields, s = Json.obj fields ∧ pyTruthy s = true := by
  obtain ⟨t, ht, -⟩ := entryId_spec s h
  cases s with
  | obj fields =>
    refine ⟨fields, rfl, ?_⟩
    unfold getItem at ht
    cases fields with
    | nil => simp [lookupField] at ht
    | cons p rest => simp [pyTruthy]
  | null => simp [getItem] at ht
  | bool b => simp [getItem] at ht
  | num n => simp [getItem] at ht
  | str u => simp [getItem] at ht
  | arr xs => simp [getItem] at ht

theorem findLoop_eq_find (xs : List Json) (sid : String)
    (h : ∀ s ∈ xs, (entryId s).isSome = true) :
    findLoop xs sid = Except.ok (xs.find? (fun s => entryId s == some sid)) := by
  induction xs with
  | nil => rfl
  | cons s rest ih =>
    obtain ⟨t, ht, hid⟩ := entryId_spec s (h s (List.mem_cons_self s rest))
    have hrest := ih (fun a ha => h a (List.mem_cons_of_mem s ha))
    unfold findLoop
    rw [ht]
    by_cases hts : (t == sid) = true
    · have hp : (fun s => entryId s == some sid) s = true := by
        simp only [hid]
        simpa using hts
      rw [@List.find?_cons_of_pos _ (fun s => entryId s == some sid) s rest hp]
      simp [jsonEqStr, hts]
    · have hp : ¬(fun s => entryId s == some sid) s = true := by
        simp only [hid]
        simpa using hts
      rw [@List.find?_cons_of_neg _ (fun s => entryId s == some sid) s rest hp]
      have htsf : (t == sid) = false := by simpa using hts
      simp [jsonEqStr, htsf, hrest]

/-- Reduction of `list_stacks` on a manager whose cache holds a document of
the expected shape. -/
theorem list_stacks_valid (file : CatalogFile) (xs : List Json) :
    list_stacks { stacks_file := file, _stacks := Json.obj [("stacks", Json.arr xs)] }
      = (Except.ok (Json.arr xs),
         { stacks_file := file, _stacks := Json.obj [("stacks", Json.arr xs)] }) := by
  unfold list_stacks
  rw [load_stacks_cached
    { stacks_file := file, _stacks := Json.obj [("stacks", Json.arr xs)] } rfl]
  rfl

/-- Reduction of `find_stack` on a manager whose cache holds a document of
the expected shape: the linear scan over the cached entries. -/
theorem find_stack_valid (file : CatalogFile) (xs : List Json) (sid : String) :
    find_stack { stacks_file := file, _stacks := Json.obj [("stacks", Json.arr xs)] } sid
      = (findLoop xs sid,
         { stacks_file := file, _stacks := Json.obj [("stacks", Json.arr xs)] }) := by
  unfold find_stack
  rw [list_stacks_valid]
  rfl

/-! ## Claims -/

/-- C1. `suggest_stack` with input `"ml"` returns `"ml"` when the hardware
probe reports true, and `"ml-cpu"` when it reports false or fails; a probe
failure is treated as no GPU and is never propagated (the probe itself is
modelled from the spec, its module being outside `src/`). -/
theorem suggest_stack_ml_probe :
    suggest_stack (ProbeResult.ok true) "ml" = "ml" ∧
    suggest_stack (ProbeResult.ok false) "ml" = "ml-cpu" ∧
    suggest_stack ProbeResult.failure "ml" = "ml-cpu" :=
  ⟨rfl, rfl, rfl⟩

/-- C2 counterexample. A file holding valid JSON of the wrong shape (here a
top-level empty array, which has no `stacks` field) does not raise the
invalid-JSON error: `load_stacks` returns it and caches it. -/
theorem load_stacks_wrong_shape_accepted :
    load_stacks { stacks_file := CatalogFile.validJson (Json.arr []),
                  _stacks := Json.null }
      = (Except.ok (Json.arr []),
         { stacks_file := CatalogFile.validJson (Json.arr []),
           _stacks := Json.arr [] }) :=
  rfl

/-- C2 amended. From a fresh state, `load_stacks` raises the invalid-JSON
error exactly for a file whose contents are not decodable as JSON; any
decodable document, whatever its shape, is returned, and an absent file
raises the not-found error instead. -/
theorem load_stacks_corrupt_iff_undecodable :
    (∀ doc : Json,
      (load_stacks { stacks_file := CatalogFile.validJson doc,
                     _stacks := Json.null }).1 = Except.ok doc) ∧
    (load_stacks { stacks_file := CatalogFile.invalidJson,
                   _stacks := Json.null }).1
        = Except.error CortexError.catalogCorrupt ∧
    (load_stacks { stacks_file := CatalogFile.absent,
                   _stacks := Json.null }).1
        ≠ Except.error CortexError.catalogCorrupt :=
  ⟨fun _ => rfl, rfl, fun h => by cases h⟩

/-- C2 amended witness: a concrete decodable document of the wrong shape
(a bare boolean) loads without the invalid-JSON error. -/
theorem load_stacks_corrupt_iff_undecodable_witness :
    (load_stacks { stacks_file := CatalogFile.validJson (Json.bool true),
                   _stacks := Json.null }).1 = Except.ok (Json.bool true) :=
  load_stacks_corrupt_iff_undecodable.1 (Json.bool true)

/-- C4. From a fresh state, `load_stacks` fails with the catalog-not-found
error exactly on an absent file and with the invalid-JSON error on an
undecodable file, leaving the cache slot untouched in both failure cases
(no incomplete catalog is returned or cached); a decodable file loads and
caches its document. -/
theorem load_stacks_error_cases :
    (∀ doc : Json,
      load_stacks { stacks_file := CatalogFile.validJson doc, _stacks := Json.null }
        = (Except.ok doc,
           { stacks_file := CatalogFile.validJson doc, _stacks := doc })) ∧
    load_stacks { stacks_file := CatalogFile.absent, _stacks := Json.null }
      = (Except.error CortexError.catalogNotFound,
         { stacks_file := CatalogFile.absent, _stacks := Json.null }) ∧
    load_stacks { stacks_file := CatalogFile.invalidJson, _stacks := Json.null }
      = (Except.error CortexError.catalogCorrupt,
         { stacks_file := CatalogFile.invalidJson, _stacks := Json.null }) :=
  ⟨fun _ => rfl, rfl, rfl⟩

/-- C3. After a first successful `load_stacks`, a second call returns the
identical result and leaves the state unchanged; once a non-null document
sits in the cache slot, loading answers from the cache whatever the file now
holds (no re-read); and none of `list_stacks`, `find_stack`,
`get_stack_packages`, `describe_stack` moves the state away from the
post-load state. -/
theorem load_stacks_cache_stable (m : StackManager) (doc : Json)
    (h : (load_stacks m).1 = Except.ok doc) :
    load_stacks (load_stacks m).2 = (Except.ok doc, (load_stacks m).2) ∧
    (doc ≠ Json.null → ∀ f : CatalogFile,
      load_stacks { stacks_file := f, _stacks := doc }
        = (Except.ok doc, { stacks_file := f, _stacks := doc })) ∧
    ∀ sid : String,
      (list_stacks (load_stacks m).2).2 = (load_stacks m).2 ∧
      (find_stack (load_stacks m).2 sid).2 = (load_stacks m).2 ∧
      (get_stack_packages (load_stacks m).2 sid).2 = (load_stacks m).2 ∧
      (describe_stack (load_stacks m).2 sid).2 = (load_stacks m).2 := by
  have hmain : load_stacks (load_stacks m).2 = (Except.ok doc, (load_stacks m).2) := by
    rcases m with ⟨f, st⟩
    by_cases hn : st.isNull = true
    · cases f with
      | absent =>
        rw [load_stacks] at h
        simp [hn] at h
      | invalidJson =>
        rw [load_stacks] at h
        simp [hn] at h
      | validJson d =>
        have hd : d = doc := by
          rw [load_stacks] at h
          simp [hn] at h
          exact h
        subst hd
        have h1 : load_stacks ⟨CatalogFile.validJson d, st⟩
            = (Except.ok d, ⟨CatalogFile.validJson d, d⟩) := by
          rw [load_stacks]
          simp [hn]
        rw [h1]
        by_cases hdn : d.isNull = true
        · rw [load_stacks]
          simp [hdn]
        · exact load_stacks_cached ⟨CatalogFile.validJson d, d⟩ (by simpa using hdn)
    · have hfalse : st.isNull = false := by simpa using hn
      have h1 : load_stacks ⟨f, st⟩ = (Except.ok st, ⟨f, st⟩) :=
        load_stacks_cached ⟨f, st⟩ hfalse
      have hst : st = doc := by
        rw [h1] at h
        exact Except.ok.inj h
      subst hst
      rw [h1]
      exact h1
  have hst2 : (load_stacks (load_stacks m).2).2 = (load_stacks m).2 := by rw [hmain]
  refine ⟨hmain, ?_, fun sid => ?_⟩
  · intro hdn f
    exact load_stacks_cached ⟨f, doc⟩ (isNull_eq_false_of_ne doc hdn)
  · exact ⟨by rw [list_stacks_snd, hst2], by rw [find_stack_snd, hst2],
      by rw [get_stack_packages_snd, hst2], by rw [describe_stack_snd, hst2]⟩

/-- C3 witness: loading a concrete well-formed file twice yields the
identical result, and a describe call leaves the loaded state in place. -/
theorem load_stacks_cache_stable_witness :
    load_stacks
        (load_stacks { stacks_file := CatalogFile.validJson (Json.obj [("stacks", Json.arr [])]),
                       _stacks := Json.null }).2
      = (Except.ok (Json.obj [("stacks", Json.arr [])]),
         (load_stacks { stacks_file := CatalogFile.validJson (Json.obj [("stacks", Json.arr [])]),
                        _stacks := Json.null }).2) ∧
    (describe_stack
        (load_stacks { stacks_file := CatalogFile.validJson (Json.obj [("stacks", Json.arr [])]),
                       _stacks := Json.null }).2 "ml").2
      = (load_stacks { stacks_file := CatalogFile.validJson (Json.obj [("stacks", Json.arr [])]),
                       _stacks := Json.null }).2 := by
  have h := load_stacks_cache_stable
    { stacks_file := CatalogFile.validJson (Json.obj [("stacks", Json.arr [])]),
      _stacks := Json.null }
    (Json.obj [("stacks", Json.arr [])]) rfl
  exact ⟨h.1, (h.2.2 "ml").2.2.2⟩

/-- C5. On a loaded catalog whose entries all carry a string `"id"`,
`find_stack` returns exactly the first entry of the scan order whose id
equals the query string (byte-for-byte `String` equality, so no
case-folding), and the not-found signal `none` when no entry matches —
`List.find?` semantics over the document order. -/
theorem find_stack_exact_match (file : CatalogFile) (xs : List Json) (sid : String)
    (h : ∀ s ∈ xs, (entryId s).isSome = true) :
    find_stack { stacks_file := file, _stacks := Json.obj [("stacks", Json.arr xs)] } sid
      = (Except.ok (xs.find? (fun s => entryId s == some sid)),
         { stacks_file := file, _stacks := Json.obj [("stacks", Json.arr xs)] }) := by
  rw [find_stack_valid, findLoop_eq_find xs sid h]

/-- C5 witness: exact match found, and the empty string and a
case-mismatched id both report not-found on a concrete catalog. -/
theorem find_stack_exact_match_witness :
    find_stack { stacks_file := CatalogFile.absent,
                 _stacks := Json.obj [("stacks", Json.arr [Json.obj [("id", Json.str "ml")]])] } "ml"
      = (Except.ok (some (Json.obj [("id", Json.str "ml")])),
         { stacks_file := CatalogFile.absent,
           _stacks := Json.obj [("stacks", Json.arr [Json.obj [("id", Json.str "ml")]])] }) ∧
    find_stack { stacks_file := CatalogFile.absent,
                 _stacks := Json.obj [("stacks", Json.arr [Json.obj [("id", Json.str "ml")]])] } "ML"
      = (Except.ok none,
         { stacks_file := CatalogFile.absent,
           _stacks := Json.obj [("stacks", Json.arr [Json.obj [("id", Json.str "ml")]])] }) ∧
    find_stack { stacks_file := CatalogFile.absent,
                 _stacks := Json.obj [("stacks", Json.arr [Json.obj [("id", Json.str "ml")]])] } ""
      = (Except.ok none,
         { stacks_file := CatalogFile.absent,
           _stacks := Json.obj [("stacks", Json.arr [Json.obj [("id", Json.str "ml")]])] }) := by
  have hids : ∀ s ∈ [Json.obj [("id", Json.str "ml")]], (entryId s).isSome = true := by
    intro s hs
    rw [List.mem_singleton] at hs
    subst hs
    rfl
  refine ⟨?_, ?_, ?_⟩
  · exact (find_stack_exact_match CatalogFile.absent _ "ml" hids).trans rfl
  · exact (find_stack_exact_match CatalogFile.absent _ "ML" hids).trans rfl
  · exact (find_stack_exact_match CatalogFile.absent _ "" hids).trans rfl

/-- C6. On a loaded catalog whose entries all carry a string `"id"`,
`get_stack_packages` returns the empty list for an id no entry matches
(no error), and the `packages` value of the matched entry (default empty) for a
present id. -/
theorem get_stack_packages_total (file : CatalogFile) (xs : List Json) (sid : String)
    (h : ∀ s ∈ xs, (entryId s).isSome = true) :
    (xs.find? (fun s => entryId s == some sid) = none →
      get_stack_packages { stacks_file := file, _stacks := Json.obj [("stacks", Json.arr xs)] } sid
        = (Except.ok (Json.arr []),
           { stacks_file := file, _stacks := Json.obj [("stacks", Json.arr xs)] })) ∧
    (∀ fields, xs.find? (fun s => entryId s == some sid) = some (Json.obj fields) →
      get_stack_packages { stacks_file := file, _stacks := Json.obj [("stacks", Json.arr xs)] } sid
        = (Except.ok ((lookupField fields "packages").getD (Json.arr [])),
           { stacks_file := file, _stacks := Json.obj [("stacks", Json.arr xs)] })) := by
  constructor
  · intro hn
    unfold get_stack_packages
    rw [find_stack_valid, findLoop_eq_find xs sid h, hn]
    rfl
  · intro fields hf
    unfold get_stack_packages
    rw [find_stack_valid, findLoop_eq_find xs sid h, hf]
    have hmem : Json.obj fields ∈ xs := List.mem_of_find?_eq_some hf
    obtain ⟨fs2, -, htr⟩ := entry_obj_of_id _ (h _ hmem)
    simp [pyTruthyOpt, htr, dictGetD]

/-- C6 witness: a nonexistent id yields the empty list without error, and a
present id yields the packages of that entry, on a concrete catalog. -/
theorem get_stack_packages_total_witness :
    get_stack_packages
        { stacks_file := CatalogFile.absent,
          _stacks := Json.obj [("stacks", Json.arr
            [Json.obj [("id", Json.str "ml"), ("packages", Json.arr [Json.str "torch"])]])] }
        "nonexistent"
      = (Except.ok (Json.arr []),
         { stacks_file := CatalogFile.absent,
           _stacks := Json.obj [("stacks", Json.arr
             [Json.obj [("id", Json.str "ml"), ("packages", Json.arr [Json.str "torch"])]])] }) ∧
    get_stack_packages
        { stacks_file := CatalogFile.absent,
          _stacks := Json.obj [("stacks", Json.arr
            [Json.obj [("id", Json.str "ml"), ("packages", Json.arr [Json.str "torch"])]])] }
        "ml"
      = (Except.ok (Json.arr [Json.str "torch"]),
         { stacks_file := CatalogFile.absent,
           _stacks := Json.obj [("stacks", Json.arr
             [Json.obj [("id", Json.str "ml"), ("packages", Json.arr [Json.str "torch"])]])] }) := by
  have hids : ∀ s ∈ [Json.obj [("id", Json.str "ml"), ("packages", Json.arr [Json.str "torch"])]],
      (entryId s).isSome = true := by
    intro s hs
    rw [List.mem_singleton] at hs
    subst hs
    rfl
  constructor
  · exact (get_stack_packages_total CatalogFile.absent _ "nonexistent" hids).1 rfl
  · exact ((get_stack_packages_total CatalogFile.absent _ "ml" hids).2
      [("id", Json.str "ml"), ("packages", Json.arr [Json.str "torch"])] rfl).trans rfl

/-- C7. On a valid catalog document — a top-level object whose `stacks` key
holds a sequence — `list_stacks` returns exactly that sequence, in document
order, without failing, both from an already-loaded state (where the state
is unchanged) and from a fresh state, where it implicitly triggers the
load; the empty sequence is the instance with no stacks defined. -/
theorem list_stacks_document_order (file : CatalogFile)
    (fields : List (String × Json)) (xs : List Json)
    (h : lookupField fields "stacks" = some (Json.arr xs)) :
    list_stacks { stacks_file := file, _stacks := Json.obj fields }
      = (Except.ok (Json.arr xs),
         { stacks_file := file, _stacks := Json.obj fields }) ∧
    list_stacks { stacks_file := CatalogFile.validJson (Json.obj fields), _stacks := Json.null }
      = (Except.ok (Json.arr xs),
         { stacks_file := CatalogFile.validJson (Json.obj fields),
           _stacks := Json.obj fields }) := by
  constructor
  · unfold list_stacks
    rw [load_stacks_cached { stacks_file := file, _stacks := Json.obj fields } rfl]
    simp [dictGetD, h]
  · unfold list_stacks
    have hl : load_stacks { stacks_file := CatalogFile.validJson (Json.obj fields),
                            _stacks := Json.null }
        = (Except.ok (Json.obj fields),
           { stacks_file := CatalogFile.validJson (Json.obj fields),
             _stacks := Json.obj fields }) := rfl
    rw [hl]
    simp [dictGetD, h]

/-- C7 witness: a concrete two-entry document is listed in order, from a
loaded and from a fresh state. -/
theorem list_stacks_document_order_witness :
    list_stacks { stacks_file := CatalogFile.absent,
                  _stacks := Json.obj [("stacks", Json.arr [Json.str "a", Json.str "b"])] }
      = (Except.ok (Json.arr [Json.str "a", Json.str "b"]),
         { stacks_file := CatalogFile.absent,
           _stacks := Json.obj [("stacks", Json.arr [Json.str "a", Json.str "b"])] }) ∧
    list_stacks { stacks_file := CatalogFile.validJson
                    (Json.obj [("stacks", Json.arr [Json.str "a", Json.str "b"])]),
                  _stacks := Json.null }
      = (Except.ok (Json.arr [Json.str "a", Json.str "b"]),
         { stacks_file := CatalogFile.validJson
             (Json.obj [("stacks", Json.arr [Json.str "a", Json.str "b"])]),
           _stacks := Json.obj [("stacks", Json.arr [Json.str "a", Json.str "b"])] }) :=
  list_stacks_document_order CatalogFile.absent
    [("stacks", Json.arr [Json.str "a", Json.str "b"])]
    [Json.str "a", Json.str "b"] rfl

/-- C10. When the loaded catalog holds an entry that is a dict without an
`"id"` key, the scan of `find_stack` raises the key error on reaching that
entry instead of skipping it or reporting not-found, and
`get_stack_packages` and `describe_stack` propagate that error. -/
theorem find_stack_missing_id_raises (file : CatalogFile)
    (fields : List (String × Json)) (sid : String)
    (h : lookupField fields "id" = none) :
    (find_stack { stacks_file := file,
                  _stacks := Json.obj [("stacks", Json.arr [Json.obj fields])] } sid).1
        = Except.error (CortexError.keyError "id") ∧
    (get_stack_packages { stacks_file := file,
                          _stacks := Json.obj [("stacks", Json.arr [Json.obj fields])] } sid).1
        = Except.error (CortexError.keyError "id") ∧
    (describe_stack { stacks_file := file,
                      _stacks := Json.obj [("stacks", Json.arr [Json.obj fields])] } sid).1
        = Except.error (CortexError.keyError "id") := by
  have hfind : find_stack { stacks_file := file,
                            _stacks := Json.obj [("stacks", Json.arr [Json.obj fields])] } sid
      = (Except.error (CortexError.keyError "id"),
         { stacks_file := file,
           _stacks := Json.obj [("stacks", Json.arr [Json.obj fields])] }) := by
    rw [find_stack_valid]
    simp [findLoop, getItem, h]
  refine ⟨by rw [hfind], ?_, ?_⟩
  · unfold get_stack_packages
    rw [hfind]
  · unfold describe_stack
    rw [hfind]

/-- C10 witness: a concrete entry lacking `"id"` makes the three lookups
raise the key error. -/
theorem find_stack_missing_id_raises_witness :
    (find_stack { stacks_file := CatalogFile.absent,
                  _stacks := Json.obj [("stacks", Json.arr [Json.obj [("name", Json.str "broken")]])] } "ml").1
        = Except.error (CortexError.keyError "id") ∧
    (get_stack_packages { stacks_file := CatalogFile.absent,
                          _stacks := Json.obj [("stacks", Json.arr [Json.obj [("name", Json.str "broken")]])] } "ml").1
        = Except.error (CortexError.keyError "id") ∧
    (describe_stack { stacks_file := CatalogFile.absent,
                      _stacks := Json.obj [("stacks", Json.arr [Json.obj [("name", Json.str "broken")]])] } "ml").1
        = Except.error (CortexError.keyError "id") :=
  find_stack_missing_id_raises CatalogFile.absent [("name", Json.str "broken")] "ml" rfl

/-- Builder for a well-formed catalog entry per the data model of the spec:
required `id`, `name`, `description`, `packages` (strings) and optional
`tags` and `hardware` fields. -/
def mkEntry (sid name description : String) (packages : List String)
    (tags : Option (List String)) (hardware : Option String) : Json :=
  Json.obj (("id", Json.str sid) :: ("name", Json.str name) ::
    ("description", Json.str description) ::
    ("packages", Json.arr (packages.map Json.str)) ::
    ((match tags with
      | none => []
      | some ts => [("tags", Json.arr (ts.map Json.str))]) ++
     (match hardware with
      | none => []
      | some hws => [("hardware", Json.str hws)])))

/-- Spec-side rendering of `describe`, written from the words of the spec:
name, description, numbered package list from 1, a Tags line only when tags
are present, and a Hardware line defaulting to `"any"` when the field is
absent. Compared against the embedded `describe_stack` below. -/
def specDescribe (name description : String) (packages tags : List String)
    (hardware : Option String) : String :=
  "\n📦 Stack: " ++ name ++ "\n" ++ "Description: " ++ description ++ "\n\n" ++
  "Packages included:\n" ++
  String.join ((List.enumFrom 1 packages).map
    (fun p => "  " ++ toString p.1 ++ ". " ++ p.2 ++ "\n")) ++
  (if tags.isEmpty then ""
   else "\nTags:  " ++ String.intercalate ", " tags ++ "\n") ++
  "Hardware: " ++ hardware.getD "any" ++ "\n"

theorem join_cons (s : String) (l : List String) :
    String.join (s :: l) = s ++ String.join l := by
  simp [String.join_eq, String.ext_iff]

theorem numberedLines_map (packages : List String) : ∀ i : Nat,
    numberedLines i (packages.map Json.str)
      = String.join ((List.enumFrom i packages).map
          (fun p => "  " ++ toString p.1 ++ ". " ++ p.2 ++ "\n")) := by
  induction packages with
  | nil => intro i; rfl
  | cons p rest ih =>
    intro i
    simp [numberedLines, List.enumFrom, join_cons, pyStr, ih (i + 1),
      String.append_assoc]

theorem strList_map (ts : List String) :
    strList (ts.map Json.str) = Except.ok ts := by
  induction ts with
  | nil => rfl
  | cons t rest ih => simp [strList, ih]

theorem pyJoin_strs (sep : String) (ts : List String) :
    pyJoin sep (Json.arr (ts.map Json.str)) = Except.ok (String.intercalate sep ts) := by
  unfold pyJoin
  simp only [pyIter]
  rw [strList_map]

theorem describeBody_mkEntry (sid name description : String) (packages : List String)
    (tags : Option (List String)) (hardware : Option String) :
    describeBody (mkEntry sid name description packages tags hardware)
      = Except.ok (specDescribe name description packages (tags.getD []) hardware) := by
  have hnum := numberedLines_map packages 1
  cases tags with
  | none =>
    cases hardware with
    | none =>
      unfold describeBody mkEntry specDescribe tagsSegment
      simp [getItem, dictGetD, lookupField, pyIter, pyStr, pyTruthy, hnum,
        String.append_assoc]
    | some hws =>
      unfold describeBody mkEntry specDescribe tagsSegment
      simp [getItem, dictGetD, lookupField, pyIter, pyStr, pyTruthy, hnum,
        String.append_assoc]
  | some ts =>
    cases ts with
    | nil =>
      cases hardware with
      | none =>
        unfold describeBody mkEntry specDescribe tagsSegment
        simp [getItem, dictGetD, lookupField, pyIter, pyStr, pyTruthy, hnum,
          String.append_assoc]
      | some hws =>
        unfold describeBody mkEntry specDescribe tagsSegment
        simp [getItem, dictGetD, lookupField, pyIter, pyStr, pyTruthy, hnum,
          String.append_assoc]
    | cons t rest =>
      have hjoin : pyJoin ", " (Json.arr (Json.str t :: rest.map Json.str))
          = Except.ok (String.intercalate ", " (t :: rest)) := pyJoin_strs ", " (t :: rest)
      cases hardware with
      | none =>
        unfold describeBody mkEntry specDescribe tagsSegment
        simp [getItem, dictGetD, lookupField, pyIter, pyStr, pyTruthy, hnum,
          hjoin, String.append_assoc]
      | some hws =>
        unfold describeBody mkEntry specDescribe tagsSegment
        simp [getItem, dictGetD, lookupField, pyIter, pyStr, pyTruthy, hnum,
          hjoin, String.append_assoc]

/-- C8. On a loaded catalog holding a well-formed entry, `describe_stack`
for the id of that entry produces exactly the multi-line summary of the spec:
name, description, packages numbered from 1 in order, a Tags line only when
tags are present, a Hardware line defaulting to `"any"` — and for every
other id it produces the plain not-found message. -/
theorem describe_stack_summary (file : CatalogFile) (sid name description : String)
    (packages : List String) (tags : Option (List String)) (hardware : Option String) :
    describe_stack
        { stacks_file := file,
          _stacks := Json.obj [("stacks",
            Json.arr [mkEntry sid name description packages tags hardware])] } sid
      = (Except.ok (specDescribe name description packages (tags.getD []) hardware),
         { stacks_file := file,
           _stacks := Json.obj [("stacks",
             Json.arr [mkEntry sid name description packages tags hardware])] }) ∧
    ∀ other, other ≠ sid →
      describe_stack
          { stacks_file := file,
            _stacks := Json.obj [("stacks",
              Json.arr [mkEntry sid name description packages tags hardware])] } other
        = (Except.ok (notFoundMsg other),
           { stacks_file := file,
             _stacks := Json.obj [("stacks",
               Json.arr [mkEntry sid name description packages tags hardware])] }) := by
  have hgetid : getItem (mkEntry sid name description packages tags hardware) "id"
      = Except.ok (Json.str sid) := by
    cases tags <;> cases hardware <;> rfl
  have htruthy : pyTruthyOpt (some (mkEntry sid name description packages tags hardware))
      = true := by
    cases tags <;> cases hardware <;> rfl
  constructor
  · unfold describe_stack
    rw [find_stack_valid]
    have hl : findLoop [mkEntry sid name description packages tags hardware] sid
        = Except.ok (some (mkEntry sid name description packages tags hardware)) := by
      unfold findLoop
      rw [hgetid]
      simp [jsonEqStr]
    rw [hl]
    simp only [htruthy, if_true]
    rw [describeBody_mkEntry]
  · intro other hother
    unfold describe_stack
    rw [find_stack_valid]
    have hl : findLoop [mkEntry sid name description packages tags hardware] other
        = Except.ok none := by
      unfold findLoop
      rw [hgetid]
      have : (sid == other) = false := beq_eq_false_iff_ne.mpr (Ne.symm hother)
      simp [jsonEqStr, this]
      rfl
    rw [hl]
    rfl

/-- C8 witness: the example of the spec — packages `nginx`, `nodejs` render
as the numbered entries `1. nginx` then `2. nodejs`, no Tags line without
tags, Hardware defaulting to `any` — and a different id is not found. -/
theorem describe_stack_summary_witness :
    describe_stack
        { stacks_file := CatalogFile.absent,
          _stacks := Json.obj [("stacks",
            Json.arr [mkEntry "webdev" "Web Dev" "d" ["nginx", "nodejs"] none none])] } "webdev"
      = (Except.ok ("\n📦 Stack: Web Dev\nDescription: d\n\nPackages included:\n  1. nginx\n  2. nodejs\nHardware: any\n"),
         { stacks_file := CatalogFile.absent,
           _stacks := Json.obj [("stacks",
             Json.arr [mkEntry "webdev" "Web Dev" "d" ["nginx", "nodejs"] none none])] }) ∧
    describe_stack
        { stacks_file := CatalogFile.absent,
          _stacks := Json.obj [("stacks",
            Json.arr [mkEntry "webdev" "Web Dev" "d" ["nginx", "nodejs"] none none])] } "ml"
      = (Except.ok (notFoundMsg "ml"),
         { stacks_file := CatalogFile.absent,
           _stacks := Json.obj [("stacks",
             Json.arr [mkEntry "webdev" "Web Dev" "d" ["nginx", "nodejs"] none none])] }) := by
  have h := describe_stack_summary CatalogFile.absent "webdev" "Web Dev" "d"
    ["nginx", "nodejs"] none none
  exact ⟨h.1.trans rfl, h.2 "ml" (by decide)⟩

/-- C9. For every input other than `"ml"`, `suggest_stack` returns its input
unchanged, whatever the probe outcome, and is idempotent there. -/
theorem suggest_stack_non_ml_identity (probe : ProbeResult) (x : String)
    (h : x ≠ "ml") :
    suggest_stack probe x = x ∧
    suggest_stack probe (suggest_stack probe x) = x := by
  have hx : suggest_stack probe x = x := by simp [suggest_stack, h]
  exact ⟨hx, by rw [hx]; exact hx⟩

/-- C9 witness: a concrete non-ml id is returned unchanged. -/
theorem suggest_stack_non_ml_identity_witness :
    suggest_stack ProbeResult.failure "webdev" = "webdev" ∧
    suggest_stack ProbeResult.failure (suggest_stack ProbeResult.failure "webdev")
      = "webdev" :=
  suggest_stack_non_ml_identity ProbeResult.failure "webdev" (by decide)

end Cortex
